import Mathlib

/-!
Verification development for the MoltMoon SDK (`src/index.ts`).

The SDK's byte buffers (`Buffer`) are modelled as `List Nat`, one entry per
byte.  Big-endian reads mirror `Buffer.readUInt16BE` / `Buffer.readUInt32BE`,
with the JS out-of-range behaviour made explicit where the source can hit it.
Fallible methods (`throw`) are modelled with `Except SDKErr`.
-/

/-- Error taxonomy of the SDK, one constructor per distinct `throw` site of
`src/index.ts` that the embedded fragment can reach.  `rangeError` stands for
the `ERR_OUT_OF_RANGE` exception Node's `Buffer.readUInt16BE` raises when a
read would fall outside the buffer. -/
inductive SDKErr where
  | invalidPNG
  | cannotParseJpeg
  | rangeError
  | unsupportedMime (mime : String)
  | unsupportedFormat
  | imageBytesTooLarge
  | mimeMismatch (claimed detected : String)
  | imageTooSmall (w h : Nat)
  | imageTooLarge (w h : Nat)
  | notSquare (w h : Nat)
  | fileReadFailed (path : String)
  | nameLength
  | symbolNotAlphanumeric
  | descriptionLength
  | seedTooSmall
  | invalidUrl (field : String)
  | apiError (msg : String)
  | chainError (msg : String)
  | signerRequired
deriving DecidableEq

deriving instance DecidableEq for Except

/-- Pixel dimensions, as returned by `parseImageDimensions`. -/
structure Dims where
  width : Nat
  height : Nat
deriving DecidableEq

/-- Big-endian 16-bit read `Buffer.readUInt16BE(o)`; used only at offsets the
source has bounds-checked, out-of-range use is modelled at the call sites. -/
def be16 (b : List Nat) (o : Nat) : Nat :=
  256 * b.getD o 0 + b.getD (o + 1) 0

/-- Big-endian 32-bit read `Buffer.readUInt32BE(o)`. -/
def be32 (b : List Nat) (o : Nat) : Nat :=
  16777216 * b.getD o 0 + 65536 * b.getD (o + 1) 0 + 256 * b.getD (o + 2) 0 + b.getD (o + 3) 0

/-- The fixed 8-byte PNG signature checked by `detectImageType`. -/
def pngSignature : List Nat := [0x89, 0x50, 0x4E, 0x47, 0x0D, 0x0A, 0x1A, 0x0A]

/-- Start-of-frame test of `parseImageDimensions`:
`marker >= 0xC0 && marker <= 0xCF && ![0xC4, 0xC8, 0xCC].includes(marker)`. -/
def isSOFMarker (m : Nat) : Bool :=
  decide (0xC0 ≤ m ∧ m ≤ 0xCF ∧ m ≠ 0xC4 ∧ m ≠ 0xC8 ∧ m ≠ 0xCC)

/-- The JPEG marker walk of `parseImageDimensions` (`src/index.ts:58-75`),
with explicit fuel (each loop iteration strictly increases `offset`, so
`b.length + 1` fuel is always enough).  Reading `buffer[offset + 1]` past the
end yields `undefined` in JS, which fails the start-of-frame range test just
as the default `0` does here; `readUInt16BE(offset + 2)` past the end throws,
modelled by the `rangeError` branch, and the source evaluates that read
before branching on `hasDimensions`. -/
def jpegGo (b : List Nat) : Nat → Nat → Except SDKErr Dims
  | 0, _ => .error .cannotParseJpeg
  | fuel + 1, offset =>
    if offset < b.length then
      if b.getD offset 0 ≠ 0xFF then
        jpegGo b fuel (offset + 1)
      else if b.length < offset + 4 then
        .error .rangeError
      else if isSOFMarker (b.getD (offset + 1) 0) then
        if b.length ≤ offset + 9 then
          .error .cannotParseJpeg
        else
          .ok ⟨be16 b (offset + 7), be16 b (offset + 5)⟩
      else
        jpegGo b fuel (offset + 2 + be16 b (offset + 2))
    else
      .error .cannotParseJpeg

/-- Embeds `parseImageDimensions(buffer, mime)` of `src/index.ts:51-80`. -/
def parseImageDimensions (b : List Nat) (mime : String) : Except SDKErr Dims :=
  if mime = "image/png" then
    if b.length < 24 then
      .error .invalidPNG
    else
      .ok ⟨be32 b 16, be32 b 20⟩
  else if mime = "image/jpeg" then
    jpegGo b (b.length + 1) 2
  else
    .error (.unsupportedMime mime)

/-- Embeds `detectImageType(buffer)` of `src/index.ts:82-90`; the returned `ext`
field is determined by the mime and elided. -/
def detectImageType (b : List Nat) : Except SDKErr String :=
  if 8 < b.length ∧ b.take 8 = pngSignature then
    .ok "image/png"
  else if 3 < b.length ∧ b.getD 0 0 = 0xFF ∧ b.getD 1 0 = 0xD8 ∧ b.getD 2 0 = 0xFF then
    .ok "image/jpeg"
  else
    .error .unsupportedFormat

/-- Constructor-held constant `imageMinDim` (`src/index.ts:22`). -/
def imageMinDim : Nat := 512

/-- Constructor-held constant `imageMaxDim` (`src/index.ts:23`). -/
def imageMaxDim : Nat := 2048

/-- Constructor-held constant `imageMaxBytes = 500 * 1024` (`src/index.ts:21`). -/
def imageMaxBytes : Nat := 500 * 1024

/-- Embeds `validateImageShape(dimensions)` of `src/index.ts:92-105`. -/
def validateImageShape (width height : Nat) : Except SDKErr Unit :=
  if width < imageMinDim ∨ height < imageMinDim then
    .error (.imageTooSmall width height)
  else if imageMaxDim < width ∨ imageMaxDim < height then
    .error (.imageTooLarge width height)
  else if 2 < ((width : Int) - (height : Int)).natAbs then
    .error (.notSquare width height)
  else
    .ok ()

/-- All positions of a buffer holding `0xFF` immediately followed by a
start-of-frame code; used to state how many SOF markers a buffer contains. -/
def sofPositions (b : List Nat) : List Nat :=
  (List.range b.length).filter (fun i => decide (b.getD i 0 = 0xFF) && isSOFMarker (b.getD (i + 1) 0))

/-- Modelled from the spec: the JPEG walk as §4.2 words it, treating a
position as a marker only when it holds `0xFF` followed by a non-zero byte
(the source's walk instead accepts any `0xFF`); stated only to be compared
against `jpegGo`. -/
def jpegGoNonzeroMarker (b : List Nat) : Nat → Nat → Except SDKErr Dims
  | 0, _ => .error .cannotParseJpeg
  | fuel + 1, offset =>
    if offset < b.length then
      if b.getD offset 0 = 0xFF ∧ b.getD (offset + 1) 0 ≠ 0 then
        if b.length < offset + 4 then
          .error .rangeError
        else if isSOFMarker (b.getD (offset + 1) 0) then
          if b.length ≤ offset + 9 then
            .error .cannotParseJpeg
          else
            .ok ⟨be16 b (offset + 7), be16 b (offset + 5)⟩
        else
          jpegGoNonzeroMarker b fuel (offset + 2 + be16 b (offset + 2))
      else
        jpegGoNonzeroMarker b fuel (offset + 1)
    else
      .error .cannotParseJpeg

/-- Modelled from the spec: entry point of the §4.2-worded walk. -/
def jpegScanNonzeroMarker (b : List Nat) : Except SDKErr Dims :=
  jpegGoNonzeroMarker b (b.length + 1) 2

/-- Models `String.prototype.trim()`: strips whitespace from both ends. -/
def jsTrim (s : String) : String :=
  String.mk (((s.data.dropWhile Char.isWhitespace).reverse.dropWhile Char.isWhitespace).reverse)

/-- Accumulator pass turning a digit list into a `Nat`. -/
def digitsNatGo (acc : Nat) : List Char → Nat
  | [] => acc
  | c :: cs => digitsNatGo (10 * acc + (c.toNat - 48)) cs

/-- Value of a non-empty all-digit character list; `none` otherwise. -/
def digitsNat? (cs : List Char) : Option Nat :=
  if cs ≠ [] ∧ cs.all Char.isDigit = true then some (digitsNatGo 0 cs) else none

/-- Splits a numeral at its decimal point: `none` when more than one point
occurs, otherwise the integer digits and the optional fraction digits. -/
def splitDecimal (cs : List Char) : Option (List Char × Option (List Char)) :=
  match cs.span (fun c => c ≠ '.') with
  | (intPart, []) => some (intPart, none)
  | (intPart, _ :: rest) =>
    if rest.contains '.' then none else some (intPart, some rest)

/-- Models the JS `Number()` coercion on plain unsigned decimal numerals
(optionally fractional), the shapes `validateLaunchParams` is exercised on;
a string outside this subset maps to `none`, which the validator treats like
a non-finite parse. -/
def numberParse (s : String) : Option ℚ :=
  match splitDecimal (jsTrim s).data with
  | none => none
  | some (intPart, none) => (digitsNat? intPart).map (fun n => (n : ℚ))
  | some (intPart, some fracPart) =>
    match digitsNat? intPart, digitsNat? fracPart with
    | some i, some f => some (mkRat (i * 10 ^ fracPart.length + f) (10 ^ fracPart.length))
    | _, _ => none

/-- Models viem `parseUnits(value, 6)` on unsigned decimal numerals with at
most six fractional digits (the shapes the verified claims exercise); the
result is the amount in `10^-6` units. -/
def parseUnits6 (s : String) : Option Nat :=
  match splitDecimal s.data with
  | none => none
  | some (intPart, none) => (digitsNat? intPart).map (fun n => n * 1000000)
  | some (intPart, some fracPart) =>
    if fracPart.length ≤ 6 then
      match digitsNat? intPart, digitsNat? fracPart with
      | some i, some f => some (i * 1000000 + f * 10 ^ (6 - fracPart.length))
      | _, _ => none
    else none

/-- Digit characters of `m`, most significant first (`fuel` bounds the
recursion; `natChars` always passes enough). -/
def natCharsGo : Nat → Nat → List Char
  | 0, _ => []
  | fuel + 1, m => if m < 10 then [Char.ofNat (48 + m)] else natCharsGo fuel (m / 10) ++ [Char.ofNat (48 + m % 10)]

/-- Decimal numeral of `n`. -/
def natChars (n : Nat) : List Char := natCharsGo (n + 1) n

/-- Drops trailing zero characters. -/
def stripZerosRight (cs : List Char) : List Char :=
  (cs.reverse.dropWhile (fun c => c = '0')).reverse

/-- Pads a digit list to six characters with leading zeros. -/
def padSixLeft (cs : List Char) : List Char :=
  List.replicate (6 - cs.length) '0' ++ cs

/-- Models viem `formatUnits(value, 6)`: decimal rendering of a `10^-6`-unit
amount with trailing fraction zeros stripped. -/
def formatUnits6 (n : Nat) : String :=
  let intPart := n / 1000000
  let fracPart := n % 1000000
  if fracPart = 0 then
    String.mk (natChars intPart)
  else
    String.mk (natChars intPart ++ ['.'] ++ stripZerosRight (padSixLeft (natChars fracPart)))

/-- Allowance arithmetic of `MoltmoonSDK.buy` (`src/index.ts:317-333`) at the
6-decimal integer level.  `quote` is the outcome of the `getQuoteBuy` attempt
combined with the `parseUnits` of its `feePaid` field: `.error` covers both a
failed quote fetch and an unparsable fee string, since either throw is
swallowed by the `catch` that resets `approveWei` to `usdcInWei`.  The
cushion line sits after the `try/catch`, so it runs on every path. -/
def buyApproveWei (usdcInWei : Nat) (quote : Except String Nat) : Nat :=
  let approveWei := match quote with
    | .ok feeWei => usdcInWei + feeWei
    | .error _ => usdcInWei
  let cushionWei := usdcInWei / 10
  approveWei + (if 0 < cushionWei then cushionWei else 1)

/-- String-level approve amount of `MoltmoonSDK.buy`: parse `usdcIn` (a throw
here happens outside the `try` and surfaces, modelled by `none`), resolve the
quote fee with the `feePaid || '0'` defaulting, and format the resulting
allowance back to a decimal string for the approve-intent request body. -/
def buyApproveAmount (usdcIn : String) (quote : Except String String) : Option String :=
  (parseUnits6 usdcIn).map (fun usdcInWei =>
    let feeRes : Except String Nat := match quote with
      | .error e => .error e
      | .ok feeStr =>
        match parseUnits6 (if feeStr = "" then "0" else feeStr) with
        | some f => .ok f
        | none => .error "fee parse"
    formatUnits6 (buyApproveWei usdcInWei feeRes))

/-- Social URL fields of `LaunchParams.socials`. -/
structure Socials where
  website : Option String
  twitter : Option String
  telegram : Option String
  discord : Option String

/-- The three accepted shapes of `LaunchParams.imageFile`.  A data URL is
carried pre-parsed: the lowercased mime from the `data:` pattern plus the
base64-decoded payload bytes (the base64 transport itself is an injective
encoding and is elided). -/
inductive ImageInput where
  | dataUrl (claimedMime : String) (bytes : List Nat)
  | buffer (bytes : List Nat)
  | path (p : String)

/-- Embeds `LaunchParams` of `src/types.ts`. -/
structure LaunchParams where
  name : String
  symbol : String
  description : String
  seedAmount : String
  imageFile : Option ImageInput
  socials : Option Socials

/-- The `/^[A-Za-z0-9]{2,12}$/` test applied to the trimmed symbol. -/
def symbolMatches (s : String) : Bool :=
  decide (2 ≤ s.length ∧ s.length ≤ 12 ∧ s.data.all Char.isAlphanum = true)

/-- Embeds `validateLaunchParams(params)` of `src/index.ts:156-165`. -/
def validateLaunchParams (p : LaunchParams) : Except SDKErr Unit :=
  let name := jsTrim p.name
  let symbol := jsTrim p.symbol
  let description := jsTrim p.description
  if name.length < 2 ∨ 64 < name.length then
    .error .nameLength
  else if !symbolMatches symbol then
    .error .symbolNotAlphanumeric
  else if description.length < 5 ∨ 500 < description.length then
    .error .descriptionLength
  else
    match numberParse p.seedAmount with
    | none => .error .seedTooSmall
    | some seed => if seed < 20 then .error .seedTooSmall else .ok ()

/-- Shorthand for a `LaunchParams` value with neither image nor socials. -/
def mkParams (n s d seed : String) : LaunchParams := ⟨n, s, d, seed, none, none⟩

/-- Embeds `normalizeUrl(value, field)` of `src/index.ts:43-49`; the WHATWG `URL`
constructor is the external collaborator `urlModel` (`some` is the normalized
serialization, `none` a parse throw). -/
def normalizeUrl (urlModel : String → Option String) (value field : String) : Except SDKErr String :=
  match urlModel value with
  | some u => .ok u
  | none => .error (.invalidUrl field)

/-- Embeds `normalizeDataUrlImage` of `src/index.ts:107-127` on the pre-parsed data
URL: size cap, sniff, claimed/actual mime agreement (modulo the jpg/jpeg
alias), dimension decode, shape check; the canonical output data URL is
carried as its mime and payload bytes. -/
def normalizeDataUrlImage (claimedMime : String) (bytes : List Nat) : Except SDKErr (String × List Nat) :=
  if imageMaxBytes < bytes.length then
    .error .imageBytesTooLarge
  else
    match detectImageType bytes with
    | .error e => .error e
    | .ok mime =>
      if claimedMime ≠ mime ∧ ¬(claimedMime = "image/jpg" ∧ mime = "image/jpeg") then
        .error (.mimeMismatch claimedMime mime)
      else
        match parseImageDimensions bytes mime with
        | .error e => .error e
        | .ok d =>
          match validateImageShape d.width d.height with
          | .error e => .error e
          | .ok _ => .ok (mime, bytes)

/-- The buffer/path branch of `normalizeImageInput` (`src/index.ts:136-153`):
size cap, sniff, dimension decode, shape check. -/
def normalizeBufferImage (bytes : List Nat) : Except SDKErr (String × List Nat) :=
  if imageMaxBytes < bytes.length then
    .error .imageBytesTooLarge
  else
    match detectImageType bytes with
    | .error e => .error e
    | .ok mime =>
      match parseImageDimensions bytes mime with
      | .error e => .error e
      | .ok d =>
        match validateImageShape d.width d.height with
        | .error e => .error e
        | .ok _ => .ok (mime, bytes)

/-- Embeds `normalizeImageInput(imageFile)` of `src/index.ts:129-154`; `fs` is the
filesystem collaborator behind `readFile` (`none` models a read throw). -/
def normalizeImageInput (fs : String → Option (List Nat)) : Option ImageInput → Except SDKErr (Option (String × List Nat))
  | none => .ok none
  | some (.dataUrl m bs) => (normalizeDataUrlImage m bs).map some
  | some (.buffer bs) => (normalizeBufferImage bs).map some
  | some (.path pth) =>
    match fs pth with
    | none => .error (.fileReadFailed pth)
    | some bs => (normalizeBufferImage bs).map some

/-- The metadata object assembled by `buildLaunchMetadata`
(`src/index.ts:181-195`); the `data:application/json;base64` URI is an
injective encoding of this object and is carried structurally. -/
structure TokenMetadata where
  name : String
  symbol : String
  description : String
  extUrl : String
  platform : String
  image : Option String
  website : Option String
  twitter : Option String
  telegram : Option String
  discord : Option String
deriving DecidableEq

/-- Embeds `TransactionIntent` of `src/types.ts`. -/
structure TransactionIntent where
  toAddr : String
  data : String
  value : String
  chainId : Nat
  description : Option String
deriving DecidableEq

/-- Body of the `/intent/tokens/create` request (`src/index.ts:285-294`). -/
structure CreateTokenBody where
  name : String
  symbol : String
  uri : TokenMetadata
  seedAmount : String
deriving DecidableEq

/-- Embeds `LaunchPreparation` of `src/types.ts`. -/
structure LaunchPreparation where
  metadataURI : TokenMetadata
  imageUrl : Option String
  approveIntent : TransactionIntent
  createIntent : TransactionIntent
deriving DecidableEq

/-- Observable effects of a launch flow, in issue order: the three backend
requests the orchestrator can make plus a transaction submission by
`executeIntent`. -/
inductive NetEvent where
  | uploadImageReq (mime : String) (bytes : List Nat)
  | approveSeedReq (amount : String)
  | createTokenReq (body : CreateTokenBody)
  | execTx (intent : TransactionIntent)
deriving DecidableEq

/-- True for the backend HTTP requests, false for a transaction submission. -/
def NetEvent.isBackendRequest : NetEvent → Bool
  | .execTx _ => false
  | _ => true

/-- Backend HTTP collaborator: the write endpoints `buildLaunchMetadata` and
`prepareLaunchToken` hit; `.error` carries the non-2xx message that
`request` turns into an `API Error` throw. -/
structure Backend where
  uploadImage : String → List Nat → Except String String
  approveSeed : String → Except String TransactionIntent
  createToken : CreateTokenBody → Except String TransactionIntent

/-- One optional social field of `buildLaunchMetadata`: the empty string is
falsy in JS, so `if (params.socials?.website)` both skips an absent field and
drops an empty one; a present non-empty value goes through `normalizeUrl`. -/
def normalizeSocialField (urlModel : String → Option String) (v : Option String) (field : String) : Except SDKErr (Option String) :=
  match v with
  | none => .ok none
  | some value =>
    if value = "" then .ok none
    else (normalizeUrl urlModel value field).map some

/-- The four social fields of `buildLaunchMetadata` (`src/index.ts:190-193`),
normalized in source order. -/
def normalizeSocials (urlModel : String → Option String) : Option Socials → Except SDKErr (Option String × Option String × Option String × Option String)
  | none => .ok (none, none, none, none)
  | some s =>
    match normalizeSocialField urlModel s.website "website" with
    | .error e => .error e
    | .ok w =>
      match normalizeSocialField urlModel s.twitter "twitter" with
      | .error e => .error e
      | .ok tw =>
        match normalizeSocialField urlModel s.telegram "telegram" with
        | .error e => .error e
        | .ok tg =>
          match normalizeSocialField urlModel s.discord "discord" with
          | .error e => .error e
          | .ok dc => .ok (w, tw, tg, dc)

/-- Metadata assembly tail of `buildLaunchMetadata` (`src/index.ts:181-196`):
normalize socials, then build the fixed-key metadata object.  The empty
string is falsy in JS, so an empty uploaded URL is dropped exactly as
`if (imageUrl)` drops it. -/
def finishMetadata (urlModel : String → Option String) (p : LaunchParams) (events : List NetEvent) (imageUrl : Option String) : List NetEvent × Except SDKErr (TokenMetadata × Option String) :=
  match normalizeSocials urlModel p.socials with
  | .error e => (events, .error e)
  | .ok (w, tw, tg, dc) =>
    (events, .ok (⟨jsTrim p.name, jsTrim p.symbol, jsTrim p.description,
      "https://moltmoon.xyz", "Built with MoltMoon SDK", imageUrl, w, tw, tg, dc⟩, imageUrl))

/-- Embeds `buildLaunchMetadata(params)` of `src/index.ts:167-197`, with the issued
backend requests logged in order: textual validation runs first, then image
normalization (no network), then — only when an image is present — the
`/upload/image` request, then metadata assembly. -/
def buildLaunchMetadata (fs : String → Option (List Nat)) (urlModel : String → Option String) (backend : Backend) (p : LaunchParams) : List NetEvent × Except SDKErr (TokenMetadata × Option String) :=
  match validateLaunchParams p with
  | .error e => ([], .error e)
  | .ok _ =>
    match normalizeImageInput fs p.imageFile with
    | .error e => ([], .error e)
    | .ok none => finishMetadata urlModel p [] none
    | .ok (some (mime, bytes)) =>
      match backend.uploadImage mime bytes with
      | .error msg => ([.uploadImageReq mime bytes], .error (.apiError msg))
      | .ok url => finishMetadata urlModel p [.uploadImageReq mime bytes] (if url = "" then none else some url)

/-- Embeds `prepareLaunchToken(params)` of `src/index.ts:278-296`: build metadata,
fetch the approve-seed intent, fetch the create-token intent, and return the
`LaunchPreparation` — no `executeIntent` call anywhere on this path. -/
def prepareLaunchToken (fs : String → Option (List Nat)) (urlModel : String → Option String) (backend : Backend) (p : LaunchParams) : List NetEvent × Except SDKErr LaunchPreparation :=
  match buildLaunchMetadata fs urlModel backend p with
  | (events, .error e) => (events, .error e)
  | (events, .ok (metadataURI, imageUrl)) =>
    match backend.approveSeed p.seedAmount with
    | .error msg => (events ++ [.approveSeedReq p.seedAmount], .error (.apiError msg))
    | .ok approveIntent =>
      match backend.createToken ⟨jsTrim p.name, jsTrim p.symbol, metadataURI, p.seedAmount⟩ with
      | .error msg =>
        (events ++ [.approveSeedReq p.seedAmount,
          .createTokenReq ⟨jsTrim p.name, jsTrim p.symbol, metadataURI, p.seedAmount⟩],
          .error (.apiError msg))
      | .ok createIntent =>
        (events ++ [.approveSeedReq p.seedAmount,
          .createTokenReq ⟨jsTrim p.name, jsTrim p.symbol, metadataURI, p.seedAmount⟩],
          .ok ⟨metadataURI, imageUrl, approveIntent, createIntent⟩)

/-- Embeds `executeIntent(intent)` of `src/index.ts:222-240`: fails fatally without
a signer; otherwise submits the intent (logged as an `execTx` event) through
the signer collaborator, which covers `sendTransaction` together with the
confirmation wait and yields the transaction hash. -/
def executeIntent (signer : Option (TransactionIntent → Except String String)) (intent : TransactionIntent) : List NetEvent × Except SDKErr String :=
  match signer with
  | none => ([], .error .signerRequired)
  | some send =>
    match send intent with
    | .error msg => ([.execTx intent], .error (.chainError msg))
    | .ok hash => ([.execTx intent], .ok hash)

/-- Embeds `launchToken(params)` of `src/index.ts:302-311`: prepare, execute the
approve intent, then execute the create intent. -/
def launchToken (fs : String → Option (List Nat)) (urlModel : String → Option String) (backend : Backend) (signer : Option (TransactionIntent → Except String String)) (p : LaunchParams) : List NetEvent × Except SDKErr String :=
  match prepareLaunchToken fs urlModel backend p with
  | (events, .error e) => (events, .error e)
  | (events, .ok prep) =>
    match executeIntent signer prep.approveIntent with
    | (ev2, .error e) => (events ++ ev2, .error e)
    | (ev2, .ok _) =>
      let (ev3, r) := executeIntent signer prep.createIntent
      (events ++ ev2 ++ ev3, r)

example : buyApproveAmount "10" (.ok "1.5") = some "12.5" := by decide

example : buyApproveAmount "10" (.error "quote fetch failed") = some "11" := by decide

example : buyApproveWei 10000000 (.error "x") = 11000000 := by decide

example : validateLaunchParams (mkParams "AB" "TKN1" "abcde" "20") = .ok () := by decide

example : validateLaunchParams (mkParams "AB" "TKN1" "abcde" "19.9") = .error .seedTooSmall := by decide

example : parseImageDimensions [0xFF, 0xD8, 0xFF, 0x00, 0xFF, 0xC0, 0x00, 0x11, 0x08, 0x00, 0x02, 0x00, 0x03, 0x00] "image/jpeg" = .error .cannotParseJpeg := by decide

example : jpegScanNonzeroMarker [0xFF, 0xD8, 0xFF, 0x00, 0xFF, 0xC0, 0x00, 0x11, 0x08, 0x00, 0x02, 0x00, 0x03, 0x00] = .ok ⟨3, 2⟩ := by decide

example : parseImageDimensions [0xFF, 0xD8, 0xFF, 0xC0, 0x00, 0x11, 0x08] "image/jpeg" = .error .cannotParseJpeg := by decide

example : sofPositions [0xFF, 0xD8, 0xFF, 0xC0, 0x00, 0x11, 0x08] = [2] := by decide

example : parseImageDimensions [0xFF, 0xD8, 0xFF, 0xFF] "image/jpeg" = .error .rangeError := by decide

example : sofPositions [0xFF, 0xD8, 0xFF, 0xFF] = [] := by decide

example : parseImageDimensions [0xFF, 0xD8, 0xFF, 0xC0, 0x00, 0x11, 0x08, 0x00, 0x02, 0x00, 0x03, 0x00] "image/jpeg" = .ok ⟨3, 2⟩ := by decide

example : validateImageShape 511 512 = .error (.imageTooSmall 511 512) := by decide

example : validateImageShape 1000 1001 = .ok () := by decide

example : detectImageType pngSignature = .error .unsupportedFormat := by decide

example : detectImageType [0xFF, 0xD8, 0xFF] = .error .unsupportedFormat := by decide

/-- Claim C2: whenever the quote fetch succeeds, the approve amount in 6-decimal
units is `nominalInput + feePaid + cushion` with
`cushion = max(nominalInput / 10, 1)` (integer units, so the 10% is the
floor of `usdcInWei / 10` and the floor's degenerate zero is replaced by one
smallest unit); concretely `usdcIn = "10"` with `feePaid = "1.5"` yields the
approve amount `"12.5"`. -/
theorem buy_quote_success_allowance :
    (∀ usdcInWei feeWei : Nat,
      buyApproveWei usdcInWei (.ok feeWei) = usdcInWei + feeWei + max (usdcInWei / 10) 1)
    ∧ buyApproveAmount "10" (.ok "1.5") = some "12.5" := by
  constructor
  · intro w f
    simp only [buyApproveWei]
    split <;> omega
  · decide

/-- Claim C1 counterexample: with `usdcIn = "10"` and a failing quote fetch the
approve amount sent to the backend is `"11"`, not the nominal `"10"` — the
cushion line sits after the `try/catch` and runs on the failure path too, so
the fallback allowance is not uncushioned. -/
theorem buy_quote_failure_counterexample :
    buyApproveAmount "10" (.error "quote fetch failed") = some "11"
    ∧ (some "11" : Option String) ≠ some "10" := by
  exact ⟨by decide, by decide⟩

/-- Claim C1 amended: on quote-fetch failure the orchestrator still recovers
locally — `buyApproveWei` is total in the error, nothing propagates — but
the approve amount is the nominal input plus the usual cushion
`max(nominalInput / 10, 1)`; only the fee term of the success path is
dropped. -/
theorem buy_quote_failure_recovers_cushioned :
    (∀ (usdcInWei : Nat) (msg : String),
      buyApproveWei usdcInWei (.error msg) = usdcInWei + max (usdcInWei / 10) 1)
    ∧ buyApproveAmount "10" (.error "quote fetch failed") = some "11" := by
  constructor
  · intro w msg
    simp only [buyApproveWei]
    split <;> omega
  · decide

/-- Claim C5: for a PNG buffer of length at least 24 the decoder returns the
big-endian 32-bit words at offsets 16 and 20 as width and height; a shorter
buffer fails with `InvalidPNG`. -/
theorem png_dimensions :
    ∀ b : List Nat,
      (24 ≤ b.length → parseImageDimensions b "image/png" = .ok ⟨be32 b 16, be32 b 20⟩)
      ∧ (b.length < 24 → parseImageDimensions b "image/png" = .error .invalidPNG) := by
  intro b
  refine ⟨fun h => ?_, fun h => ?_⟩
  · unfold parseImageDimensions
    rw [if_pos rfl, if_neg (by omega)]
  · unfold parseImageDimensions
    rw [if_pos rfl, if_pos h]

/-- Witness for `png_dimensions` at a 24-byte header (width 512, height 516)
and at a 1-byte buffer. -/
theorem png_dimensions_witness :
    parseImageDimensions (pngSignature ++ [0, 0, 0, 13, 73, 72, 68, 82, 0, 0, 2, 0, 0, 0, 2, 4]) "image/png" = .ok ⟨512, 516⟩
    ∧ parseImageDimensions [0x89] "image/png" = .error .invalidPNG := by
  constructor
  · have h := (png_dimensions (pngSignature ++ [0, 0, 0, 13, 73, 72, 68, 82, 0, 0, 2, 0, 0, 0, 2, 4])).1 (by decide)
    rw [h]
    decide
  · exact (png_dimensions [0x89]).2 (by decide)

/-- Claim C6: the shape validator reports `TooSmall` exactly when a dimension is
below 512, else `TooLarge` exactly when one exceeds 2048, else `NotSquare`
exactly when the dimensions differ by more than 2, else accepts; checked in
that order, together with the five concrete instances of the spec. -/
theorem image_shape_validation :
    (∀ w h : Nat,
      (validateImageShape w h = .error (.imageTooSmall w h) ↔ (w < 512 ∨ h < 512))
      ∧ (validateImageShape w h = .error (.imageTooLarge w h) ↔ (¬(w < 512 ∨ h < 512) ∧ (2048 < w ∨ 2048 < h)))
      ∧ (validateImageShape w h = .error (.notSquare w h) ↔ (¬(w < 512 ∨ h < 512) ∧ ¬(2048 < w ∨ 2048 < h) ∧ 2 < ((w : Int) - (h : Int)).natAbs))
      ∧ (validateImageShape w h = .ok () ↔ (¬(w < 512 ∨ h < 512) ∧ ¬(2048 < w ∨ 2048 < h) ∧ ((w : Int) - (h : Int)).natAbs ≤ 2)))
    ∧ validateImageShape 511 512 = .error (.imageTooSmall 511 512)
    ∧ validateImageShape 512 512 = .ok ()
    ∧ validateImageShape 2049 2048 = .error (.imageTooLarge 2049 2048)
    ∧ validateImageShape 1000 900 = .error (.notSquare 1000 900)
    ∧ validateImageShape 1000 1001 = .ok () := by
  refine ⟨fun w h => ?_, by decide, by decide, by decide, by decide, by decide⟩
  unfold validateImageShape imageMinDim imageMaxDim
  split_ifs with h1 h2 h3 <;> refine ⟨?_, ?_, ?_, ?_⟩ <;> simp_all <;> omega

/-- Witness for `image_shape_validation`, exercising the `TooSmall`
characterization at 100 by 100 through the first conjunct. -/
theorem image_shape_validation_witness :
    validateImageShape 100 100 = .error (.imageTooSmall 100 100) :=
  ((image_shape_validation.1 100 100).1).mpr (by omega)

/-- Claim C10: format sniffing demands a buffer strictly longer than the matched
signature — the exact 8-byte PNG signature and the exact 3 bytes
`FF D8 FF` both fall through to `UnsupportedFormat` — and the general
characterizations of the two accepted classifications. -/
theorem detect_requires_strictly_longer :
    detectImageType pngSignature = .error .unsupportedFormat
    ∧ detectImageType [0xFF, 0xD8, 0xFF] = .error .unsupportedFormat
    ∧ (∀ b : List Nat,
        detectImageType b = .ok "image/png" ↔ (8 < b.length ∧ b.take 8 = pngSignature))
    ∧ (∀ b : List Nat,
        detectImageType b = .ok "image/jpeg" ↔
          (¬(8 < b.length ∧ b.take 8 = pngSignature)
            ∧ 3 < b.length ∧ b.getD 0 0 = 0xFF ∧ b.getD 1 0 = 0xD8 ∧ b.getD 2 0 = 0xFF)) := by
  have hne : ("image/jpeg" : String) ≠ "image/png" := by decide
  refine ⟨by decide, by decide, fun b => ?_, fun b => ?_⟩ <;>
    · unfold detectImageType
      split_ifs with h1 h2 <;> simp_all

/-- Witness for `detect_requires_strictly_longer`: a 9-byte buffer opening
with the PNG signature is classified PNG, through the third conjunct. -/
theorem detect_requires_strictly_longer_witness :
    detectImageType (pngSignature ++ [0]) = .ok "image/png" :=
  (detect_requires_strictly_longer.2.2.1 (pngSignature ++ [0])).mpr (by decide)

/-- Claim C7: the launch-parameter validator accepts exactly when the trimmed name
length lies in [2,64], the trimmed symbol matches the 2-12 alphanumeric
pattern, the trimmed description length lies in [5,500], and the seed amount
parses as a (finite) number at least 20; the spec's two concrete instances
follow. -/
theorem launch_params_validation :
    (∀ p : LaunchParams,
      validateLaunchParams p = .ok () ↔
        (2 ≤ (jsTrim p.name).length ∧ (jsTrim p.name).length ≤ 64
          ∧ symbolMatches (jsTrim p.symbol) = true
          ∧ 5 ≤ (jsTrim p.description).length ∧ (jsTrim p.description).length ≤ 500
          ∧ ∃ q : ℚ, numberParse p.seedAmount = some q ∧ 20 ≤ q))
    ∧ validateLaunchParams (mkParams "AB" "TKN1" "abcde" "20") = .ok ()
    ∧ validateLaunchParams (mkParams "AB" "TKN1" "abcde" "19.9") = .error .seedTooSmall := by
  refine ⟨fun p => ?_, by decide, by decide⟩
  unfold validateLaunchParams
  dsimp only
  split_ifs with h1 h2 h3
  · constructor
    · intro h
      exact absurd h (by simp)
    · intro h
      omega
  · constructor
    · intro h
      exact absurd h (by simp)
    · intro h
      simp only [Bool.not_eq_true'] at h2
      exact absurd h.2.2.1 (by simp [h2])
  · constructor
    · intro h
      exact absurd h (by simp)
    · intro h
      omega
  · have h2x : symbolMatches (jsTrim p.symbol) = true := by
      revert h2
      cases symbolMatches (jsTrim p.symbol) <;> simp
    cases hq : numberParse p.seedAmount with
    | none =>
      constructor
      · intro h
        exact absurd h (by simp)
      · rintro ⟨-, -, -, -, -, q, hq2, -⟩
        exact absurd hq2 (by simp)
    | some q =>
      dsimp only
      split_ifs with h5
      · constructor
        · intro h
          exact absurd h (by simp)
        · rintro ⟨-, -, -, -, -, q2, hq2, hle⟩
          obtain rfl : q = q2 := by injection hq2
          exact absurd hle (by simpa using h5)
      · constructor
        · intro _
          exact ⟨by omega, by omega, h2x, by omega, by omega, q, rfl, le_of_not_lt h5⟩
        · intro _
          rfl

/-- Witness for `launch_params_validation`, recovering acceptance of the
spec's passing instance through the iff of the first conjunct. -/
theorem launch_params_validation_witness :
    validateLaunchParams (mkParams "AB" "TKN1" "abcde" "25") = .ok () :=
  (launch_params_validation.1 (mkParams "AB" "TKN1" "abcde" "25")).mpr
    ⟨by decide, by decide, by decide, by decide, by decide, 25, by decide, by decide⟩

/-- Claim C3 counterexample: on the buffer
`FF D8 FF 00 FF C0 00 11 08 00 02 00 03 00` the source's walk treats the
`FF 00` at offset 2 as a marker and performs its segment-length skip
(jumping past the end, so decoding fails), while the spec-worded walk —
marker only when `0xFF` is followed by a non-zero byte — reaches the real
`FF C0` frame marker at offset 4 and decodes 3 by 2. -/
theorem jpeg_ff00_counterexample :
    parseImageDimensions [0xFF, 0xD8, 0xFF, 0x00, 0xFF, 0xC0, 0x00, 0x11, 0x08, 0x00, 0x02, 0x00, 0x03, 0x00] "image/jpeg" = .error .cannotParseJpeg
    ∧ jpegScanNonzeroMarker [0xFF, 0xD8, 0xFF, 0x00, 0xFF, 0xC0, 0x00, 0x11, 0x08, 0x00, 0x02, 0x00, 0x03, 0x00] = .ok ⟨3, 2⟩
    ∧ parseImageDimensions [0xFF, 0xD8, 0xFF, 0x00, 0xFF, 0xC0, 0x00, 0x11, 0x08, 0x00, 0x02, 0x00, 0x03, 0x00] "image/jpeg"
        ≠ jpegScanNonzeroMarker [0xFF, 0xD8, 0xFF, 0x00, 0xFF, 0xC0, 0x00, 0x11, 0x08, 0x00, 0x02, 0x00, 0x03, 0x00] := by
  exact ⟨by decide, by decide, by decide⟩

/-- Claim C3 amended: the scan treats every in-bounds position holding `0xFF` as a
marker position regardless of the following byte; in particular a `0xFF`
followed by `0x00` is handled as a (non-frame) marker and causes a
segment-length skip to `offset + 2 + segmentLength`. -/
theorem jpeg_ff_always_marker :
    ∀ (b : List Nat) (fuel offset : Nat),
      offset < b.length →
      b.getD offset 0 = 0xFF →
      b.getD (offset + 1) 0 = 0 →
      offset + 4 ≤ b.length →
      jpegGo b (fuel + 1) offset = jpegGo b fuel (offset + 2 + be16 b (offset + 2)) := by
  intro b fuel offset h1 h2 h3 h4
  conv_lhs => unfold jpegGo
  rw [if_pos h1, if_neg (by rw [h2]; simp), if_neg (by omega), h3,
    if_neg (by rw [show isSOFMarker 0 = false from by decide]; simp)]

/-- Witness for `jpeg_ff_always_marker` at the counterexample buffer:
the `FF 00` at offset 2 skips the walk to offset `2 + 2 + 0xFFC0`. -/
theorem jpeg_ff_always_marker_witness :
    jpegGo [0xFF, 0xD8, 0xFF, 0x00, 0xFF, 0xC0, 0x00, 0x11, 0x08, 0x00, 0x02, 0x00, 0x03, 0x00] 15 2
      = jpegGo [0xFF, 0xD8, 0xFF, 0x00, 0xFF, 0xC0, 0x00, 0x11, 0x08, 0x00, 0x02, 0x00, 0x03, 0x00] 14
          (2 + 2 + be16 [0xFF, 0xD8, 0xFF, 0x00, 0xFF, 0xC0, 0x00, 0x11, 0x08, 0x00, 0x02, 0x00, 0x03, 0x00] 4) :=
  jpeg_ff_always_marker _ 14 2 (by decide) (by decide) (by decide) (by decide)

/-- The walk returns the dimensions stored at the first `0xFF` position at or
after the start offset whenever that position carries a start-of-frame code
with at least ten bytes remaining. -/
theorem jpegGo_first_sof (b : List Nat) (i : Nat) (hi9 : i + 9 < b.length)
    (hFF : b.getD i 0 = 0xFF) (hSOF : isSOFMarker (b.getD (i + 1) 0) = true) :
    ∀ (fuel offset : Nat), offset ≤ i → i < fuel + offset →
      (∀ j, offset ≤ j → j < i → b.getD j 0 ≠ 0xFF) →
      jpegGo b fuel offset = .ok ⟨be16 b (i + 7), be16 b (i + 5)⟩ := by
  intro fuel
  induction fuel with
  | zero =>
    intro offset h1 h2 h3
    exfalso
    omega
  | succ fuel ih =>
    intro offset h1 h2 h3
    by_cases he : offset = i
    · subst he
      conv_lhs => unfold jpegGo
      rw [if_pos (by omega), if_neg (by rw [hFF]; simp), if_neg (by omega), if_pos hSOF,
        if_neg (by omega)]
    · have hlt : offset < i := by omega
      conv_lhs => unfold jpegGo
      rw [if_pos (by omega : offset < b.length), if_pos (h3 offset le_rfl hlt)]
      exact ih (offset + 1) (by omega) (by omega) (fun j hj1 hj2 => h3 j (by omega) hj2)

/-- A successful walk exposes a start-of-frame marker position: success is
only reachable through the branch that read one. -/
theorem jpegGo_ok_has_sof (b : List Nat) :
    ∀ (fuel offset : Nat) (d : Dims), jpegGo b fuel offset = .ok d →
      ∃ i, i + 9 < b.length ∧ b.getD i 0 = 0xFF ∧ isSOFMarker (b.getD (i + 1) 0) = true := by
  intro fuel
  induction fuel with
  | zero =>
    intro offset d h
    exact absurd h (by simp [jpegGo])
  | succ fuel ih =>
    intro offset d h
    unfold jpegGo at h
    by_cases h1 : offset < b.length
    · rw [if_pos h1] at h
      by_cases h2 : b.getD offset 0 ≠ 0xFF
      · rw [if_pos h2] at h
        exact ih _ _ h
      · rw [if_neg h2] at h
        by_cases h3 : b.length < offset + 4
        · rw [if_pos h3] at h
          exact absurd h (by simp)
        · rw [if_neg h3] at h
          by_cases h4 : isSOFMarker (b.getD (offset + 1) 0) = true
          · rw [if_pos h4] at h
            by_cases h5 : b.length ≤ offset + 9
            · rw [if_pos h5] at h
              exact absurd h (by simp)
            · exact ⟨offset, by omega, by simpa using h2, h4⟩
          · rw [if_neg h4] at h
            exact ih _ _ h
    · rw [if_neg h1] at h
      exact absurd h (by simp)

/-- Claim C4 counterexample: the JPEG buffer `FF D8 FF C0 00 11 08` contains
exactly one start-of-frame marker (at offset 2), yet decoding fails with
`CannotParseDimensions` because fewer than ten bytes follow the marker; and
the JPEG buffer `FF D8 FF FF` contains no start-of-frame marker, yet fails
with the out-of-range read error rather than `CannotParseDimensions`,
because the segment-length read at offset 4 falls outside the buffer. -/
theorem jpeg_sof_decoding_counterexample :
    sofPositions [0xFF, 0xD8, 0xFF, 0xC0, 0x00, 0x11, 0x08] = [2]
    ∧ parseImageDimensions [0xFF, 0xD8, 0xFF, 0xC0, 0x00, 0x11, 0x08] "image/jpeg" = .error .cannotParseJpeg
    ∧ sofPositions [0xFF, 0xD8, 0xFF, 0xFF] = []
    ∧ parseImageDimensions [0xFF, 0xD8, 0xFF, 0xFF] "image/jpeg" = .error .rangeError
    ∧ SDKErr.rangeError ≠ SDKErr.cannotParseJpeg := by
  exact ⟨by decide, by decide, by decide, by decide, by decide⟩

/-- Claim C4 amended: when the first `0xFF` byte at or after offset 2 carries a
start-of-frame code and lies at least ten bytes before the end, the decoder
returns height from the big-endian 16-bit word five bytes past the marker
and width from the word seven bytes past it (first marker wins); and a
buffer containing no start-of-frame byte pair anywhere never decodes — it
fails with `CannotParseDimensions` or the out-of-range read error. -/
theorem jpeg_sof_decoding :
    (∀ (b : List Nat) (i : Nat),
      2 ≤ i → i + 9 < b.length →
      (∀ j, 2 ≤ j → j < i → b.getD j 0 ≠ 0xFF) →
      b.getD i 0 = 0xFF →
      isSOFMarker (b.getD (i + 1) 0) = true →
      parseImageDimensions b "image/jpeg" = .ok ⟨be16 b (i + 7), be16 b (i + 5)⟩)
    ∧ (∀ b : List Nat, sofPositions b = [] →
        ∃ e, parseImageDimensions b "image/jpeg" = .error e) := by
  constructor
  · intro b i h2i hi9 hfirst hFF hSOF
    unfold parseImageDimensions
    rw [if_neg (by decide), if_pos rfl]
    exact jpegGo_first_sof b i hi9 hFF hSOF (b.length + 1) 2 h2i (by omega) hfirst
  · intro b hempty
    cases hp : parseImageDimensions b "image/jpeg" with
    | error e => exact ⟨e, rfl⟩
    | ok d =>
      exfalso
      unfold parseImageDimensions at hp
      rw [if_neg (by decide), if_pos rfl] at hp
      obtain ⟨i, hi9, hFF, hSOF⟩ := jpegGo_ok_has_sof b (b.length + 1) 2 d hp
      have hmem : i ∈ sofPositions b := by
        unfold sofPositions
        rw [List.mem_filter]
        refine ⟨List.mem_range.mpr (by omega), ?_⟩
        rw [hFF, hSOF]
        rfl
      rw [hempty] at hmem
      exact absurd hmem (List.not_mem_nil i)

/-- Witness for `jpeg_sof_decoding`: the positive half at a buffer whose
first marker is an SOF at offset 2 (decoding 3 by 2), the negative half at
the markerless buffer `FF D8 FF`. -/
theorem jpeg_sof_decoding_witness :
    parseImageDimensions [0xFF, 0xD8, 0xFF, 0xC0, 0x00, 0x11, 0x08, 0x00, 0x02, 0x00, 0x03, 0x00] "image/jpeg" = .ok ⟨3, 2⟩
    ∧ ∃ e, parseImageDimensions [0xFF, 0xD8, 0xFF] "image/jpeg" = .error e := by
  constructor
  · have h := jpeg_sof_decoding.1 [0xFF, 0xD8, 0xFF, 0xC0, 0x00, 0x11, 0x08, 0x00, 0x02, 0x00, 0x03, 0x00] 2
      (by omega) (by decide) (by intro j hj1 hj2; exfalso; omega) (by decide) (by decide)
    rw [h]
    decide
  · exact jpeg_sof_decoding.2 [0xFF, 0xD8, 0xFF] (by decide)

/-- Every event `finishMetadata` reports is exactly the list it was given. -/
theorem finishMetadata_fst (urlModel : String → Option String) (p : LaunchParams) (events : List NetEvent) (imageUrl : Option String) :
    (finishMetadata urlModel p events imageUrl).1 = events := by
  unfold finishMetadata
  cases normalizeSocials urlModel p.socials with
  | error e => rfl
  | ok t =>
    obtain ⟨w, tw, tg, dc⟩ := t
    rfl

/-- Every event `buildLaunchMetadata` emits is a backend HTTP request (at
most the single image upload). -/
theorem buildLaunchMetadata_events (fs : String → Option (List Nat)) (urlModel : String → Option String) (backend : Backend) (p : LaunchParams) :
    ((buildLaunchMetadata fs urlModel backend p).1).all NetEvent.isBackendRequest = true := by
  unfold buildLaunchMetadata
  split
  · rfl
  · split
    · rfl
    · rw [finishMetadata_fst]
      rfl
    · split
      · rfl
      · rw [finishMetadata_fst]
        rfl

/-- Claim C9: the dry-run path never reaches the execution engine — every event of
`prepareLaunchToken`, for every collaborator behaviour and every input, is a
backend request (image upload or intent fetch), never a transaction
submission. -/
theorem dry_run_no_broadcast :
    ∀ (fs : String → Option (List Nat)) (urlModel : String → Option String) (backend : Backend) (p : LaunchParams),
      ((prepareLaunchToken fs urlModel backend p).1).all NetEvent.isBackendRequest = true := by
  intro fs urlModel backend p
  have hb := buildLaunchMetadata_events fs urlModel backend p
  unfold prepareLaunchToken
  split
  · rename_i events e heq
    rw [heq] at hb
    exact hb
  · rename_i events uri img heq
    rw [heq] at hb
    have hb2 : events.all NetEvent.isBackendRequest = true := hb
    split
    · simp [List.all_append, hb2, NetEvent.isBackendRequest]
    · split <;> simp [List.all_append, hb2, NetEvent.isBackendRequest]

/-- Claim C8: when textual validation rejects the launch parameters,
`buildLaunchMetadata` surfaces that very error with an empty event trace —
no backend request, the image upload included, is ever issued for invalid
input. -/
theorem validation_precedes_network :
    ∀ (fs : String → Option (List Nat)) (urlModel : String → Option String) (backend : Backend) (p : LaunchParams) (e : SDKErr),
      validateLaunchParams p = .error e →
      buildLaunchMetadata fs urlModel backend p = ([], .error e) := by
  intro fs urlModel backend p e h
  unfold buildLaunchMetadata
  rw [h]

/-- Witness for `validation_precedes_network` at the spec's failing seed
`"19.9"`, with concrete collaborators. -/
theorem validation_precedes_network_witness :
    buildLaunchMetadata (fun _ => none) (fun _ => none)
      ⟨fun _ _ => .error "down", fun _ => .error "down", fun _ => .error "down"⟩
      (mkParams "AB" "TKN1" "abcde" "19.9") = ([], .error .seedTooSmall) :=
  validation_precedes_network _ _ _ _ .seedTooSmall (by decide)
